import Mathlib

/-!
Shallow embedding of the task store of `src/script.js` (class `TaskManager`).

Modelling choices:
* JS timestamps (`new Date().toISOString()`) are opaque strings supplied as a
  `now` argument to the operations that read the clock.
* The `localStorage` cell for the key `"tasks"` is part of the manager state
  (`storage : Option Stored`); `none` models an absent key.  A stored string is
  abstracted by `Stored`: the serialization of a task list (`good`), the empty
  string (falsy in JS, `emptyStr`), or a string `JSON.parse` rejects
  (`malformed`).  `JSON.parse` throwing is modelled by `Except.error`.
* A task's `completedAt` is `Option (Option String)`: `none` models the field
  being absent from the object (a freshly created task never receives the
  field, and `JSON.stringify` omits absent fields), `some none` models the
  JSON value `null`, `some (some ts)` an ISO timestamp string.
* JS numbers used as ids and counts are embedded as `Nat`; the floating-point
  expression `Math.round((completed / total) * 100)` is embedded exactly over
  `ℚ` with Mathlib's `round` (round half up, as `Math.round` on nonnegative
  arguments).
-/

namespace TodoList

/-- ECMAScript `String.prototype.trim`: removes leading and trailing
whitespace.  Embedded structurally over the character list so that it
evaluates in the kernel. -/
def jsTrim (s : String) : String :=
  ⟨((s.data.dropWhile Char.isWhitespace).reverse.dropWhile Char.isWhitespace).reverse⟩

/-- A task record as built by `addTask` (src/script.js lines 30-37) and
mutated by `toggleTaskCompletion`. -/
structure Task where
  id : Nat
  text : String
  completed : Bool
  date : Option String
  priority : String
  createdAt : String
  completedAt : Option (Option String)
deriving Repr, DecidableEq

/-- Abstraction of the string stored under the key "tasks": the faithful
serialization of a task list, the empty string (falsy in JS), or a string
that `JSON.parse` rejects. -/
inductive Stored where
  | emptyStr : Stored
  | good : List Task → Stored
  | malformed : Stored
deriving Repr, DecidableEq

/-- `loadTasks` (src/script.js lines 9-12):
`const tasks = localStorage.getItem('tasks'); return tasks ? JSON.parse(tasks) : [];`
An absent key (`none`) or an empty string is falsy, yielding `[]`; otherwise
`JSON.parse` runs and throws on malformed input (there is no try/catch). -/
def loadTasks : Option Stored → Except String (List Task)
  | none => .ok []
  | some .emptyStr => .ok []
  | some (.good ts) => .ok ts
  | some .malformed => .error "SyntaxError: Unexpected token in JSON"

/-- `getNextId` (src/script.js lines 20-22):
`this.tasks.length > 0 ? Math.max(...this.tasks.map(task => task.id)) + 1 : 1`. -/
def getNextId (tasks : List Task) : Nat :=
  if tasks.length > 0 then (tasks.map Task.id).foldl max 0 + 1 else 1

/-- The manager state: the in-memory task list, the in-memory id counter, and
the storage cell for the key "tasks". -/
structure TaskManager where
  tasks : List Task
  nextId : Nat
  storage : Option Stored
deriving Repr, DecidableEq

/-- The constructor (src/script.js lines 3-6): loads from storage (propagating
a `JSON.parse` exception) and derives the id counter. -/
def TaskManager.init (storage : Option Stored) : Except String TaskManager :=
  match loadTasks storage with
  | .error e => .error e
  | .ok ts => .ok { tasks := ts, nextId := getNextId ts, storage := storage }

/-- `saveTasks` (src/script.js lines 15-17): writes the serialization of the
whole current collection to the storage cell. -/
def saveTasks (s : TaskManager) : TaskManager :=
  { s with storage := some (.good s.tasks) }

/-- The object literal of src/script.js lines 30-37: no `completedAt` field
is ever written at creation, so the outer `Option` is `none`. -/
def newTaskOf (s : TaskManager) (text : String) (date : Option String)
    (priority : Option String) (now : String) : Task :=
  { id := s.nextId, text := jsTrim text, completed := false, date := date,
    priority := priority.getD "medium", createdAt := now, completedAt := none }

/-- `addTask` (src/script.js lines 25-42).  The `priority` parameter is
`Option String`: `none` models the argument being absent, which triggers the
default parameter value `'medium'`; the `date` default `null` and an explicit
`null` coincide as `none : Option String`.  On empty trimmed text the function
throws (modelled by `Except.error`) and the state is unchanged. -/
def addTask (s : TaskManager) (text : String) (date : Option String)
    (priority : Option String) (now : String) : Except String Task × TaskManager :=
  if jsTrim text = "" then
    (.error "Task text cannot be empty", s)
  else
    (.ok (newTaskOf s text date priority now),
      saveTasks { s with
                  tasks := s.tasks ++ [newTaskOf s text date priority now],
                  nextId := s.nextId + 1 })

/-- `getAllTasks` (src/script.js lines 45-47). -/
def getAllTasks (s : TaskManager) : List Task :=
  s.tasks

/-- `getCompletedTasks` (src/script.js lines 50-52). -/
def getCompletedTasks (s : TaskManager) : List Task :=
  s.tasks.filter (fun t => t.completed)

/-- `getPendingTasks` (src/script.js lines 55-57). -/
def getPendingTasks (s : TaskManager) : List Task :=
  s.tasks.filter (fun t => !t.completed)

/-- The in-place mutation performed by `toggleTaskCompletion` on the found
task (src/script.js lines 63-64):
`task.completed = !task.completed; task.completedAt = task.completed ? new Date().toISOString() : null;`. -/
def toggleOne (now : String) (t : Task) : Task :=
  { t with completed := !t.completed,
           completedAt := if !t.completed then some (some now) else some none }

/-- Walks the list as `this.tasks.find(task => task.id === id)` does and
replaces the first task with the given id by its toggled version, returning
the updated task. -/
def toggleFirst (now : String) (id : Nat) : List Task → Option Task × List Task
  | [] => (none, [])
  | t :: ts =>
    if t.id = id then
      (some (toggleOne now t), toggleOne now t :: ts)
    else
      let r := toggleFirst now id ts
      (r.1, t :: r.2)

/-- `toggleTaskCompletion` (src/script.js lines 60-69): toggles the first task
with the given id and persists; returns `null` (`none`) and does not persist
when no task matches. -/
def toggleTaskCompletion (s : TaskManager) (id : Nat) (now : String) :
    Option Task × TaskManager :=
  match toggleFirst now id s.tasks with
  | (none, _) => (none, s)
  | (some t, ts) => (some t, saveTasks { s with tasks := ts })

/-- Removes the first task with the given id, as
`findIndex` + `splice(index, 1)` do (src/script.js lines 73-75), returning the
removed task. -/
def deleteFirst (id : Nat) : List Task → Option Task × List Task
  | [] => (none, [])
  | t :: ts =>
    if t.id = id then
      (some t, ts)
    else
      let r := deleteFirst id ts
      (r.1, t :: r.2)

/-- `deleteTask` (src/script.js lines 72-80): removes the first task with the
given id and persists; returns `null` (`none`) and does not persist when no
task matches. -/
def deleteTask (s : TaskManager) (id : Nat) : Option Task × TaskManager :=
  match deleteFirst id s.tasks with
  | (none, _) => (none, s)
  | (some t, ts) => (some t, saveTasks { s with tasks := ts })

/-- `clearCompletedTasks` (src/script.js lines 83-88): returns the completed
tasks, keeps only the pending ones, and persists. -/
def clearCompletedTasks (s : TaskManager) : List Task × TaskManager :=
  (getCompletedTasks s,
    saveTasks { s with tasks := s.tasks.filter (fun t => !t.completed) })

/-- The record returned by `getStats`. -/
structure Stats where
  total : Nat
  completed : Nat
  pending : Nat
  completionRate : Int
deriving Repr, DecidableEq

/-- `getStats` (src/script.js lines 91-102); `completionRate` is
`total > 0 ? Math.round((completed / total) * 100) : 0`, embedded exactly
over `ℚ`. -/
def getStats (s : TaskManager) : Stats :=
  let total := s.tasks.length
  let completed := (s.tasks.filter (fun t => t.completed)).length
  let pending := total - completed
  { total := total, completed := completed, pending := pending,
    completionRate :=
      if total > 0 then round (((completed : ℚ) / (total : ℚ)) * 100) else 0 }

/-- `getPriorityClass` (src/script.js lines 116-123): object lookup
`classes[priority]` with fallback `|| 'priority-medium'`. -/
def getPriorityClass (p : String) : String :=
  if p = "high" then "priority-high"
  else if p = "medium" then "priority-medium"
  else if p = "low" then "priority-low"
  else "priority-medium"

/-- `JSON.stringify` omits object fields that are absent; the serialized
record of a task carries a `completedAt` field exactly when the in-memory
object has one (outer `Option` is `some`). -/
def serializedHasCompletedAtField (t : Task) : Bool :=
  t.completedAt.isSome

/-- Session invariant: every id in the collection is below the in-memory
counter, so the counter always hands out fresh ids. -/
abbrev Inv (s : TaskManager) : Prop :=
  ∀ t ∈ s.tasks, t.id < s.nextId

/-- A manager over an empty collection, as constructed on first visit
(no stored data). -/
def mgr0 : TaskManager :=
  { tasks := [], nextId := 1, storage := none }

/-- A concrete pending task used to exercise the operations. -/
def task1 : Task :=
  { id := 1, text := "Buy milk", completed := false, date := none,
    priority := "medium", createdAt := "2024-01-01T00:00:00.000Z",
    completedAt := none }

/-- A concrete completed task used to exercise the operations. -/
def task2 : Task :=
  { id := 2, text := "Ship release", completed := true, date := some "2024-01-01",
    priority := "high", createdAt := "2024-01-01T00:00:00.000Z",
    completedAt := some (some "2024-01-02T00:00:00.000Z") }

/-- A concrete manager holding one pending and one completed task. -/
def mgr2 : TaskManager :=
  { tasks := [task1, task2], nextId := 3, storage := some (.good [task1, task2]) }

/-! ### Helper lemmas -/

theorem le_foldl_max_init (l : List Nat) (a : Nat) : a ≤ l.foldl max a := by
  induction l generalizing a with
  | nil => exact le_refl a
  | cons x xs ih => exact le_trans (le_max_left a x) (ih (max a x))

theorem le_foldl_max (l : List Nat) (a x : Nat) (hx : x ∈ l) : x ≤ l.foldl max a := by
  induction l generalizing a with
  | nil => cases hx
  | cons y ys ih =>
    rcases List.mem_cons.mp hx with h | h
    · subst h
      exact le_trans (le_max_right a x) (le_foldl_max_init ys (max a x))
    · exact ih (max a y) h

theorem getNextId_gt (tasks : List Task) (t : Task) (ht : t ∈ tasks) :
    t.id < getNextId tasks := by
  have hlen : tasks.length > 0 := List.length_pos.mpr (by rintro rfl; cases ht)
  have hle : t.id ≤ (tasks.map Task.id).foldl max 0 :=
    le_foldl_max _ 0 _ (List.mem_map_of_mem Task.id ht)
  unfold getNextId
  rw [if_pos hlen]
  omega

theorem addTask_eq_of_ne (s : TaskManager) (text : String) (date priority : Option String)
    (now : String) (h : ¬ jsTrim text = "") :
    addTask s text date priority now =
      (.ok (newTaskOf s text date priority now),
        saveTasks { s with
                    tasks := s.tasks ++ [newTaskOf s text date priority now],
                    nextId := s.nextId + 1 }) := by
  simp [addTask, h]

theorem addTask_ok_cases (s : TaskManager) (text : String) (date priority : Option String)
    (now : String) (t : Task) (s' : TaskManager)
    (h : addTask s text date priority now = (.ok t, s')) :
    ¬ jsTrim text = "" ∧ t = newTaskOf s text date priority now ∧
      s' = saveTasks { s with
                       tasks := s.tasks ++ [newTaskOf s text date priority now],
                       nextId := s.nextId + 1 } := by
  by_cases hc : jsTrim text = ""
  · exfalso
    simp [addTask, hc] at h
  · rw [addTask_eq_of_ne s text date priority now hc] at h
    have h1 := congrArg Prod.fst h
    have h2 := congrArg Prod.snd h
    simp only [] at h1 h2
    refine ⟨hc, ?_, h2.symm⟩
    cases h1
    rfl

theorem toggleOne_id (now : String) (t : Task) : (toggleOne now t).id = t.id := rfl

theorem toggleFirst_not_found (now : String) (id : Nat) (ts : List Task)
    (h : ∀ t ∈ ts, t.id ≠ id) : toggleFirst now id ts = (none, ts) := by
  induction ts with
  | nil => rfl
  | cons t ts ih =>
    have ht : ¬ t.id = id := h t (List.mem_cons_self t ts)
    simp [toggleFirst, ht, ih (fun u hu => h u (List.mem_cons_of_mem t hu))]

theorem deleteFirst_not_found (id : Nat) (ts : List Task)
    (h : ∀ t ∈ ts, t.id ≠ id) : deleteFirst id ts = (none, ts) := by
  induction ts with
  | nil => rfl
  | cons t ts ih =>
    have ht : ¬ t.id = id := h t (List.mem_cons_self t ts)
    simp [deleteFirst, ht, ih (fun u hu => h u (List.mem_cons_of_mem t hu))]

theorem toggleFirst_found (now : String) (id : Nat) (ts : List Task) (t₀ : Task)
    (h : ts.find? (fun t => t.id == id) = some t₀) :
    ∃ ts', toggleFirst now id ts = (some (toggleOne now t₀), ts') ∧
      ts'.find? (fun t => t.id == id) = some (toggleOne now t₀) := by
  induction ts with
  | nil => simp at h
  | cons t ts ih =>
    by_cases hc : t.id = id
    · rw [List.find?_cons_of_pos _ (by simp [hc])] at h
      injection h with h'
      subst h'
      refine ⟨toggleOne now t :: ts, by simp [toggleFirst, hc], ?_⟩
      exact List.find?_cons_of_pos _ (by simp [toggleOne_id, hc])
    · rw [List.find?_cons_of_neg _ (by simp [hc])] at h
      obtain ⟨ts', h1, h2⟩ := ih h
      refine ⟨t :: ts', by simp [toggleFirst, hc, h1], ?_⟩
      rw [List.find?_cons_of_neg _ (by simp [hc])]
      exact h2

theorem toggleFirst_found_exists (now : String) (id : Nat) (ts : List Task)
    (h : ∃ t ∈ ts, t.id = id) :
    ∃ t' ts', toggleFirst now id ts = (some t', ts') := by
  obtain ⟨t, ht, hid⟩ := h
  have : (ts.find? (fun t => t.id == id)).isSome := by
    rw [List.find?_isSome]
    exact ⟨t, ht, by simp [hid]⟩
  obtain ⟨t₀, h₀⟩ := Option.isSome_iff_exists.mp this
  obtain ⟨ts', h1, _⟩ := toggleFirst_found now id ts t₀ h₀
  exact ⟨toggleOne now t₀, ts', h1⟩

theorem deleteFirst_found_exists (id : Nat) (ts : List Task)
    (h : ∃ t ∈ ts, t.id = id) :
    ∃ t' ts', deleteFirst id ts = (some t', ts') := by
  induction ts with
  | nil => simp at h
  | cons t ts ih =>
    by_cases hc : t.id = id
    · exact ⟨t, ts, by simp [deleteFirst, hc]⟩
    · obtain ⟨u, hu, hid⟩ := h
      rcases List.mem_cons.mp hu with rfl | hu'
      · exact absurd hid hc
      · obtain ⟨t', ts', h1⟩ := ih ⟨u, hu', hid⟩
        exact ⟨t', t :: ts', by simp [deleteFirst, hc, h1]⟩

theorem toggleFirst_map_id (now : String) (id : Nat) (ts : List Task) :
    ((toggleFirst now id ts).2).map Task.id = ts.map Task.id := by
  induction ts with
  | nil => rfl
  | cons t ts ih =>
    by_cases hc : t.id = id
    · simp [toggleFirst, hc, toggleOne]
    · simp [toggleFirst, hc, ih]

theorem deleteFirst_sublist (id : Nat) (ts : List Task) :
    ((deleteFirst id ts).2).Sublist ts := by
  induction ts with
  | nil => simp [deleteFirst]
  | cons t ts ih =>
    by_cases hc : t.id = id
    · simp only [deleteFirst, if_pos hc]
      exact List.sublist_cons_self t ts
    · simpa [deleteFirst, hc] using ih.cons₂ t

theorem deleteTask_nextId (s : TaskManager) (id : Nat) :
    (deleteTask s id).2.nextId = s.nextId := by
  unfold deleteTask
  rcases h : deleteFirst id s.tasks with ⟨o, ts⟩
  cases o <;> simp [saveTasks]

theorem toggleTaskCompletion_nextId (s : TaskManager) (id : Nat) (now : String) :
    (toggleTaskCompletion s id now).2.nextId = s.nextId := by
  unfold toggleTaskCompletion
  rcases h : toggleFirst now id s.tasks with ⟨o, ts⟩
  cases o <;> simp [saveTasks]

theorem inv_init (st : Option Stored) (m : TaskManager)
    (h : TaskManager.init st = .ok m) : Inv m := by
  unfold TaskManager.init at h
  rcases hl : loadTasks st with e | ts <;> rw [hl] at h
  · cases h
  · injection h with h'
    subst h'
    intro t ht
    exact getNextId_gt ts t ht

theorem inv_addTask (s : TaskManager) (text : String) (date priority : Option String)
    (now : String) (hInv : Inv s) : Inv (addTask s text date priority now).2 := by
  by_cases hc : jsTrim text = ""
  · simpa [addTask, hc] using hInv
  · rw [addTask_eq_of_ne s text date priority now hc]
    intro t ht
    simp only [saveTasks] at ht ⊢
    rcases List.mem_append.mp ht with h | h
    · exact Nat.lt_succ_of_lt (hInv t h)
    · rcases List.mem_singleton.mp h with rfl
      exact Nat.lt_succ_self _

theorem inv_toggleTaskCompletion (s : TaskManager) (id : Nat) (now : String)
    (hInv : Inv s) : Inv (toggleTaskCompletion s id now).2 := by
  unfold toggleTaskCompletion
  rcases h : toggleFirst now id s.tasks with ⟨o, ts⟩
  cases o with
  | none => exact hInv
  | some t' =>
    intro t ht
    simp only [saveTasks] at ht ⊢
    have hid : t.id ∈ ts.map Task.id := List.mem_map_of_mem Task.id ht
    have hmap : ts.map Task.id = s.tasks.map Task.id := by
      have := toggleFirst_map_id now id s.tasks
      rw [h] at this
      exact this
    rw [hmap] at hid
    obtain ⟨u, hu, hequ⟩ := List.mem_map.mp hid
    rw [← hequ]
    exact hInv u hu

theorem inv_deleteTask (s : TaskManager) (id : Nat) (hInv : Inv s) :
    Inv (deleteTask s id).2 := by
  unfold deleteTask
  rcases h : deleteFirst id s.tasks with ⟨o, ts⟩
  cases o with
  | none => exact hInv
  | some t' =>
    intro t ht
    simp only [saveTasks] at ht ⊢
    have hsub : ts.Sublist s.tasks := by
      have := deleteFirst_sublist id s.tasks
      rw [h] at this
      exact this
    exact hInv t (hsub.mem ht)

theorem inv_clearCompletedTasks (s : TaskManager) (hInv : Inv s) :
    Inv (clearCompletedTasks s).2 := by
  intro t ht
  simp only [clearCompletedTasks, saveTasks] at ht ⊢
  exact hInv t (List.mem_of_mem_filter ht)

/-! ### Claim theorems -/

/-- C1: `addTask(text, date, priority)` succeeds iff `text.trim()` is
non-empty; on success the returned task is appended to the store, has the
trimmed text, `completed = false` and a fresh id; on empty trimmed text it
raises the empty-text validation error and the collection is unchanged. -/
theorem addTask_succeeds_iff_trimmed_nonempty (s : TaskManager) (hInv : Inv s)
    (text : String) (date priority : Option String) (now : String) :
    ((addTask s text date priority now).1.isOk = true ↔ jsTrim text ≠ "") ∧
    (∀ t s', addTask s text date priority now = (.ok t, s') →
      t.text = jsTrim text ∧ t.completed = false ∧ t.id = s.nextId ∧
      (∀ u ∈ s.tasks, u.id ≠ t.id) ∧ s'.tasks = s.tasks ++ [t]) ∧
    (jsTrim text = "" →
      addTask s text date priority now = (.error "Task text cannot be empty", s)) := by
  refine ⟨?_, ?_, ?_⟩
  · by_cases hc : jsTrim text = "" <;>
      simp [addTask, hc, Except.isOk, Except.toBool]
  · intro t s' h
    obtain ⟨hne, rfl, rfl⟩ := addTask_ok_cases s text date priority now t s' h
    refine ⟨rfl, rfl, rfl, ?_, rfl⟩
    intro u hu
    exact Nat.ne_of_lt (hInv u hu)
  · intro hc
    simp [addTask, hc]

/-- Witness for C1 at a concrete input. -/
theorem addTask_succeeds_iff_trimmed_nonempty_witness :
    Inv mgr0 ∧
    (((addTask mgr0 "  Buy milk  " none none "t0").1.isOk = true ↔
        jsTrim "  Buy milk  " ≠ "") ∧
      (∀ t s', addTask mgr0 "  Buy milk  " none none "t0" = (.ok t, s') →
        t.text = jsTrim "  Buy milk  " ∧ t.completed = false ∧ t.id = mgr0.nextId ∧
        (∀ u ∈ mgr0.tasks, u.id ≠ t.id) ∧ s'.tasks = mgr0.tasks ++ [t]) ∧
      (jsTrim "  Buy milk  " = "" →
        addTask mgr0 "  Buy milk  " none none "t0" =
          (.error "Task text cannot be empty", mgr0))) := by
  have h0 : Inv mgr0 := by intro t ht; simp [mgr0] at ht
  exact ⟨h0, addTask_succeeds_iff_trimmed_nonempty mgr0 h0 "  Buy milk  " none none "t0"⟩

/-- C2 counterexample: on a stored string that `JSON.parse` rejects, the load
performed at construction raises the parse error instead of yielding the
empty collection (there is no try/catch in `loadTasks`). -/
theorem loadTasks_raises_on_malformed :
    loadTasks (some .malformed) = .error "SyntaxError: Unexpected token in JSON" ∧
    loadTasks (some .malformed) ≠ .ok [] ∧
    TaskManager.init (some .malformed) =
      .error "SyntaxError: Unexpected token in JSON" := by
  refine ⟨rfl, ?_, rfl⟩
  intro h
  simp [loadTasks] at h

/-- C2 amended: an absent key or an empty stored string yields the empty
collection, and a well-formed stored collection is loaded as is; but a
malformed stored string makes `JSON.parse` throw, and the error propagates
out of the constructor uncaught. -/
theorem loadTasks_empty_on_absent_raises_on_malformed :
    loadTasks none = .ok [] ∧ loadTasks (some .emptyStr) = .ok [] ∧
    (∀ ts, loadTasks (some (.good ts)) = .ok ts) ∧
    loadTasks (some .malformed) = .error "SyntaxError: Unexpected token in JSON" :=
  ⟨rfl, rfl, fun _ => rfl, rfl⟩

theorem round_mono_rat {q r : ℚ} (h : q ≤ r) : round q ≤ round r := by
  rw [round_eq, round_eq]
  exact Int.floor_mono (by linarith)

/-- C3: toggling an existing pending task sets `completed = true` and a
non-null `completedAt`; toggling again restores `completed = false` and
`completedAt = null`; no operation other than the toggle ever changes a
surviving task's `completed` field. -/
theorem toggleTaskCompletion_pending_round_trip (s : TaskManager) (id : Nat)
    (t₀ : Task) (hfind : s.tasks.find? (fun t => t.id == id) = some t₀)
    (hpend : t₀.completed = false) (now now2 : String) :
    ∃ t₁ s₁ t₂ s₂,
      toggleTaskCompletion s id now = (some t₁, s₁) ∧
      t₁.completed = true ∧ t₁.completedAt = some (some now) ∧
      toggleTaskCompletion s₁ id now2 = (some t₂, s₂) ∧
      t₂.completed = false ∧ t₂.completedAt = some none ∧
      (∀ text date priority now3 t s',
        addTask s text date priority now3 = (.ok t, s') →
        ∀ u ∈ s'.tasks, u ∈ s.tasks ∨ u = t) ∧
      (∀ j, ((deleteTask s j).2.tasks).Sublist s.tasks) ∧
      ((clearCompletedTasks s).2.tasks).Sublist s.tasks := by
  obtain ⟨ts', h1, h2⟩ := toggleFirst_found now id s.tasks t₀ hfind
  have e1 : toggleTaskCompletion s id now =
      (some (toggleOne now t₀), saveTasks { s with tasks := ts' }) := by
    unfold toggleTaskCompletion
    rw [h1]
  have hts : (saveTasks { s with tasks := ts' }).tasks = ts' := rfl
  obtain ⟨ts'', g1, _⟩ := toggleFirst_found now2 id ts' (toggleOne now t₀) h2
  have e2 : toggleTaskCompletion (saveTasks { s with tasks := ts' }) id now2 =
      (some (toggleOne now2 (toggleOne now t₀)),
        saveTasks { saveTasks { s with tasks := ts' } with tasks := ts'' }) := by
    unfold toggleTaskCompletion
    rw [hts, g1]
  refine ⟨toggleOne now t₀, saveTasks { s with tasks := ts' },
    toggleOne now2 (toggleOne now t₀), _, e1, ?_, ?_, e2, ?_, ?_, ?_, ?_, ?_⟩
  · simp [toggleOne, hpend]
  · simp [toggleOne, hpend]
  · simp [toggleOne, hpend]
  · simp [toggleOne, hpend]
  · intro text date priority now3 t s' h
    obtain ⟨_, rfl, rfl⟩ := addTask_ok_cases s text date priority now3 t s' h
    intro u hu
    simp only [saveTasks] at hu
    rcases List.mem_append.mp hu with h' | h'
    · exact Or.inl h'
    · exact Or.inr (List.mem_singleton.mp h')
  · intro j
    unfold deleteTask
    rcases hj : deleteFirst j s.tasks with ⟨o, ts⟩
    cases o with
    | none => exact List.Sublist.refl s.tasks
    | some t' =>
      have := deleteFirst_sublist j s.tasks
      rw [hj] at this
      exact this
  · exact List.filter_sublist s.tasks

/-- Witness for C3 at a concrete input. -/
theorem toggleTaskCompletion_pending_round_trip_witness :
    mgr2.tasks.find? (fun t => t.id == 1) = some task1 ∧ task1.completed = false ∧
    (∃ t₁ s₁ t₂ s₂,
      toggleTaskCompletion mgr2 1 "t1" = (some t₁, s₁) ∧
      t₁.completed = true ∧ t₁.completedAt = some (some "t1") ∧
      toggleTaskCompletion s₁ 1 "t2" = (some t₂, s₂) ∧
      t₂.completed = false ∧ t₂.completedAt = some none ∧
      (∀ text date priority now3 t s',
        addTask mgr2 text date priority now3 = (.ok t, s') →
        ∀ u ∈ s'.tasks, u ∈ mgr2.tasks ∨ u = t) ∧
      (∀ j, ((deleteTask mgr2 j).2.tasks).Sublist mgr2.tasks) ∧
      ((clearCompletedTasks mgr2).2.tasks).Sublist mgr2.tasks) := by
  refine ⟨rfl, rfl, ?_⟩
  exact toggleTaskCompletion_pending_round_trip mgr2 1 task1 rfl rfl "t1" "t2"

/-- C4: `clearCompletedTasks()` returns exactly the previously completed
tasks in stored order; afterwards `getCompletedTasks()` is empty and
`getPendingTasks()` is unchanged. -/
theorem clearCompletedTasks_returns_completed_keeps_pending (s : TaskManager) :
    (clearCompletedTasks s).1 = s.tasks.filter (fun t => t.completed) ∧
    getCompletedTasks (clearCompletedTasks s).2 = [] ∧
    getPendingTasks (clearCompletedTasks s).2 = getPendingTasks s := by
  refine ⟨rfl, ?_, ?_⟩
  · simp [getCompletedTasks, clearCompletedTasks, saveTasks, List.filter_filter]
  · simp [getPendingTasks, clearCompletedTasks, saveTasks, List.filter_filter]

/-- C5: `getStats()` returns the collection size, the completed count, their
difference as pending, and `completionRate = round(completed/total × 100)`,
an integer in `[0, 100]` that is `0` when `total = 0`. -/
theorem getStats_fields_and_completionRate_bounds (s : TaskManager) :
    (getStats s).total = s.tasks.length ∧
    (getStats s).completed = (s.tasks.filter (fun t => t.completed)).length ∧
    (getStats s).pending = (getStats s).total - (getStats s).completed ∧
    (getStats s).completionRate =
      (if (getStats s).total > 0 then
        round ((((getStats s).completed : ℚ) / ((getStats s).total : ℚ)) * 100)
      else 0) ∧
    0 ≤ (getStats s).completionRate ∧ (getStats s).completionRate ≤ 100 ∧
    (s.tasks.length = 0 → (getStats s).completionRate = 0) := by
  have hrate : (getStats s).completionRate =
      (if s.tasks.length > 0 then
        round ((((s.tasks.filter (fun t => t.completed)).length : ℚ) /
          (s.tasks.length : ℚ)) * 100)
      else 0) := rfl
  have hCT : (s.tasks.filter (fun t => t.completed)).length ≤ s.tasks.length :=
    List.length_filter_le _ _
  have hbounds : 0 ≤ (getStats s).completionRate ∧ (getStats s).completionRate ≤ 100 := by
    rw [hrate]
    by_cases hT : s.tasks.length > 0
    · rw [if_pos hT]
      have hTq : (0:ℚ) < (s.tasks.length : ℚ) := by exact_mod_cast hT
      have h0 : (0:ℚ) ≤ (((s.tasks.filter (fun t => t.completed)).length : ℚ) /
          (s.tasks.length : ℚ)) * 100 := by positivity
      have h100 : (((s.tasks.filter (fun t => t.completed)).length : ℚ) /
          (s.tasks.length : ℚ)) * 100 ≤ 100 := by
        have hle1 : ((s.tasks.filter (fun t => t.completed)).length : ℚ) /
            (s.tasks.length : ℚ) ≤ 1 :=
          div_le_one_of_le₀ (by exact_mod_cast hCT) (le_of_lt hTq)
        nlinarith
      constructor
      · have := round_mono_rat h0
        rwa [round_zero] at this
      · have := round_mono_rat h100
        rwa [show round ((100:ℚ)) = 100 by norm_num] at this
    · rw [if_neg hT]
      norm_num
  refine ⟨rfl, rfl, rfl, hrate, hbounds.1, hbounds.2, ?_⟩
  intro h0
  rw [hrate, if_neg (by omega)]

/-- C6: on an id not present in the store, `toggleTaskCompletion` and
`deleteTask` return the not-found sentinel (`null`, embedded as `none`) and
leave the whole manager state unchanged. -/
theorem toggle_delete_missing_id_leave_store_unchanged (s : TaskManager) (id : Nat)
    (h : ∀ t ∈ s.tasks, t.id ≠ id) (now : String) :
    toggleTaskCompletion s id now = (none, s) ∧ deleteTask s id = (none, s) := by
  constructor
  · unfold toggleTaskCompletion
    rw [toggleFirst_not_found now id s.tasks h]
  · unfold deleteTask
    rw [deleteFirst_not_found id s.tasks h]

/-- Witness for C6 at a concrete input. -/
theorem toggle_delete_missing_id_witness :
    (∀ t ∈ mgr2.tasks, t.id ≠ 99) ∧
    (toggleTaskCompletion mgr2 99 "t1" = (none, mgr2) ∧
      deleteTask mgr2 99 = (none, mgr2)) := by
  have h : ∀ t ∈ mgr2.tasks, t.id ≠ 99 := by decide
  exact ⟨h, toggle_delete_missing_id_leave_store_unchanged mgr2 99 h "t1"⟩

/-- C7: every mutating operation (successful `addTask`, `toggleTaskCompletion`
and `deleteTask` on an existing id, `clearCompletedTasks`) leaves the storage
cell holding the serialization of the whole current collection when it
returns. -/
theorem mutations_persist_whole_collection (s : TaskManager) (text : String)
    (date priority : Option String) (now : String) (id : Nat)
    (htext : jsTrim text ≠ "") (hid : ∃ t ∈ s.tasks, t.id = id) :
    (addTask s text date priority now).2.storage =
      some (.good (addTask s text date priority now).2.tasks) ∧
    (toggleTaskCompletion s id now).2.storage =
      some (.good (toggleTaskCompletion s id now).2.tasks) ∧
    (deleteTask s id).2.storage = some (.good (deleteTask s id).2.tasks) ∧
    (clearCompletedTasks s).2.storage =
      some (.good (clearCompletedTasks s).2.tasks) := by
  refine ⟨?_, ?_, ?_, rfl⟩
  · rw [addTask_eq_of_ne s text date priority now htext]
    rfl
  · obtain ⟨t', ts', h1⟩ := toggleFirst_found_exists now id s.tasks hid
    unfold toggleTaskCompletion
    rw [h1]
    rfl
  · obtain ⟨t', ts', h1⟩ := deleteFirst_found_exists id s.tasks hid
    unfold deleteTask
    rw [h1]
    rfl

/-- Witness for C7 at a concrete input. -/
theorem mutations_persist_whole_collection_witness :
    jsTrim "New task" ≠ "" ∧ (∃ t ∈ mgr2.tasks, t.id = 1) ∧
    ((addTask mgr2 "New task" none none "t3").2.storage =
      some (.good (addTask mgr2 "New task" none none "t3").2.tasks) ∧
    (toggleTaskCompletion mgr2 1 "t3").2.storage =
      some (.good (toggleTaskCompletion mgr2 1 "t3").2.tasks) ∧
    (deleteTask mgr2 1).2.storage = some (.good (deleteTask mgr2 1).2.tasks) ∧
    (clearCompletedTasks mgr2).2.storage =
      some (.good (clearCompletedTasks mgr2).2.tasks)) := by
  have h1 : jsTrim "New task" ≠ "" := by decide
  have h2 : ∃ t ∈ mgr2.tasks, t.id = 1 := by decide
  exact ⟨h1, h2, mutations_persist_whole_collection mgr2 "New task" none none "t3" 1 h1 h2⟩

/-- C8 counterexample: an unrecognized priority value passed to `addTask` is
stored verbatim on the created task, not replaced by `"medium"`. -/
theorem addTask_stores_unrecognized_priority :
    ((addTask mgr0 "Ship release" none (some "urgent") "t0").2.tasks.map Task.priority)
      = ["urgent"] ∧ ("urgent" : String) ≠ "medium" := by
  exact ⟨rfl, by decide⟩

/-- C8 amended: the `"medium"` default applies only when the priority
argument is absent; a provided priority string, recognized or not, is stored
verbatim, and only the display helper `getPriorityClass` maps unrecognized
values to the medium styling class. -/
theorem priority_default_only_when_absent (s : TaskManager) (text : String)
    (date : Option String) (now : String) (p : String) (h : jsTrim text ≠ "") :
    (addTask s text date none now).1.isOk = true ∧
    (∀ t s', addTask s text date none now = (.ok t, s') → t.priority = "medium") ∧
    (∀ t s', addTask s text date (some p) now = (.ok t, s') → t.priority = p) ∧
    (p ≠ "high" → p ≠ "medium" → p ≠ "low" →
      getPriorityClass p = "priority-medium") := by
  refine ⟨?_, ?_, ?_, ?_⟩
  · simp [addTask, h, Except.isOk, Except.toBool]
  · intro t s' hok
    obtain ⟨_, rfl, _⟩ := addTask_ok_cases s text date none now t s' hok
    rfl
  · intro t s' hok
    obtain ⟨_, rfl, _⟩ := addTask_ok_cases s text date (some p) now t s' hok
    rfl
  · intro h1 h2 h3
    simp [getPriorityClass, h1, h2, h3]

/-- Witness for the amended C8 at a concrete input. -/
theorem priority_default_only_when_absent_witness :
    jsTrim "a" ≠ "" ∧
    ((addTask mgr0 "a" none none "t0").1.isOk = true ∧
      (∀ t s', addTask mgr0 "a" none none "t0" = (.ok t, s') →
        t.priority = "medium") ∧
      (∀ t s', addTask mgr0 "a" none (some "urgent") "t0" = (.ok t, s') →
        t.priority = "urgent") ∧
      ("urgent" ≠ "high" → "urgent" ≠ "medium" → "urgent" ≠ "low" →
        getPriorityClass "urgent" = "priority-medium")) := by
  have h : jsTrim "a" ≠ "" := by decide
  exact ⟨h, priority_default_only_when_absent mgr0 "a" none "t0" "urgent" h⟩

/-- C9 counterexample: a task created by `addTask` and never toggled has no
`completedAt` field at all, so the record serialized to storage omits the
field instead of carrying `completedAt = null`. -/
theorem fresh_task_serialized_without_completedAt_field :
    (addTask mgr0 "Buy milk" none none "t0").2.storage =
      some (.good [{ id := 1, text := "Buy milk", completed := false, date := none,
                     priority := "medium", createdAt := "t0", completedAt := none }]) ∧
    serializedHasCompletedAtField
      { id := 1, text := "Buy milk", completed := false, date := none,
        priority := "medium", createdAt := "t0", completedAt := none } = false :=
  ⟨rfl, rfl⟩

/-- C9 amended: records serialized after a mutation carry the fields written
at creation, but `completedAt` is absent from a never-toggled task's record;
the field appears only once `toggleTaskCompletion` writes it, as a timestamp
string on completion and as `null` on un-completion. -/
theorem completedAt_field_present_only_after_toggle (s : TaskManager)
    (text : String) (date priority : Option String) (now : String)
    (h : jsTrim text ≠ "") :
    (addTask s text date priority now).1.isOk = true ∧
    (∀ t s', addTask s text date priority now = (.ok t, s') →
      s'.storage = some (.good s'.tasks) ∧ t ∈ s'.tasks ∧
      serializedHasCompletedAtField t = false) ∧
    (∀ t : Task, serializedHasCompletedAtField (toggleOne now t) = true) ∧
    (∀ t : Task, t.completed = false →
      (toggleOne now t).completedAt = some (some now)) ∧
    (∀ t : Task, t.completed = true → (toggleOne now t).completedAt = some none) := by
  refine ⟨?_, ?_, ?_, ?_, ?_⟩
  · simp [addTask, h, Except.isOk, Except.toBool]
  · intro t s' hok
    obtain ⟨_, rfl, rfl⟩ := addTask_ok_cases s text date priority now t s' hok
    refine ⟨rfl, ?_, rfl⟩
    simp [saveTasks]
  · intro t
    cases ht : t.completed <;> simp [toggleOne, serializedHasCompletedAtField, ht]
  · intro t ht
    simp [toggleOne, ht]
  · intro t ht
    simp [toggleOne, ht]

/-- Witness for the amended C9 at a concrete input. -/
theorem completedAt_field_present_only_after_toggle_witness :
    jsTrim "a" ≠ "" ∧
    ((addTask mgr0 "a" none none "t0").1.isOk = true ∧
      (∀ t s', addTask mgr0 "a" none none "t0" = (.ok t, s') →
        s'.storage = some (.good s'.tasks) ∧ t ∈ s'.tasks ∧
        serializedHasCompletedAtField t = false) ∧
      (∀ t : Task, serializedHasCompletedAtField (toggleOne "t0" t) = true) ∧
      (∀ t : Task, t.completed = false →
        (toggleOne "t0" t).completedAt = some (some "t0")) ∧
      (∀ t : Task, t.completed = true →
        (toggleOne "t0" t).completedAt = some none)) := by
  have h : jsTrim "a" ≠ "" := by decide
  exact ⟨h, completedAt_field_present_only_after_toggle mgr0 "a" none none "t0" h⟩

/-- C10: within one session the id counter starts above every loaded id and
only grows, so every id `addTask` assigns is strictly greater than all ids
present or previously assigned, and deleting the task holding the maximum id
does not make `addTask` reuse that id. -/
theorem ids_strictly_increase_within_session (s : TaskManager) (hInv : Inv s)
    (id : Nat) (hid : ∃ u ∈ s.tasks, u.id = id) (text : String)
    (date priority : Option String) (now : String) :
    (∀ st m, TaskManager.init st = .ok m → Inv m) ∧
    (∀ t s', addTask s text date priority now = (.ok t, s') →
      (∀ u ∈ s.tasks, u.id < t.id) ∧ Inv s') ∧
    Inv (toggleTaskCompletion s id now).2 ∧
    Inv (deleteTask s id).2 ∧
    Inv (clearCompletedTasks s).2 ∧
    (deleteTask s id).2.nextId = s.nextId ∧
    (∀ t s', addTask (deleteTask s id).2 text date priority now = (.ok t, s') →
      t.id ≠ id) := by
  refine ⟨inv_init, ?_, inv_toggleTaskCompletion s id now hInv,
    inv_deleteTask s id hInv, inv_clearCompletedTasks s hInv,
    deleteTask_nextId s id, ?_⟩
  · intro t s' hok
    obtain ⟨hne, rfl, rfl⟩ := addTask_ok_cases s text date priority now t s' hok
    constructor
    · intro u hu
      exact hInv u hu
    · have hpres := inv_addTask s text date priority now hInv
      rw [addTask_eq_of_ne s text date priority now hne] at hpres
      exact hpres
  · intro t s' hok
    obtain ⟨hne, rfl, _⟩ := addTask_ok_cases (deleteTask s id).2 text date priority now t s' hok
    obtain ⟨u, hu, huid⟩ := hid
    have hlt : u.id < s.nextId := hInv u hu
    have hni : (deleteTask s id).2.nextId = s.nextId := deleteTask_nextId s id
    simp only [newTaskOf]
    rw [hni, ← huid]
    omega

/-- Witness for C10 at a concrete input. -/
theorem ids_strictly_increase_within_session_witness :
    Inv mgr2 ∧ (∃ u ∈ mgr2.tasks, u.id = 2) ∧
    ((∀ st m, TaskManager.init st = .ok m → Inv m) ∧
      (∀ t s', addTask mgr2 "a" none none "t3" = (.ok t, s') →
        (∀ u ∈ mgr2.tasks, u.id < t.id) ∧ Inv s') ∧
      Inv (toggleTaskCompletion mgr2 2 "t3").2 ∧
      Inv (deleteTask mgr2 2).2 ∧
      Inv (clearCompletedTasks mgr2).2 ∧
      (deleteTask mgr2 2).2.nextId = mgr2.nextId ∧
      (∀ t s', addTask (deleteTask mgr2 2).2 "a" none none "t3" = (.ok t, s') →
        t.id ≠ 2)) := by
  have h1 : Inv mgr2 := by decide
  have h2 : ∃ u ∈ mgr2.tasks, u.id = 2 := by decide
  exact ⟨h1, h2,
    ids_strictly_increase_within_session mgr2 h1 2 h2 "a" none none "t3"⟩

end TodoList
